import Mathlib

set_option autoImplicit false

namespace CovidBot

/-! # Shallow embedding of the covid-bot data pipeline

Definitions are translated from `src/api.py` and `src/hopkins_api.py`.
Python cell values (`int | float | str | None`) are modelled by `Val`,
Python dicts by insertion-ordered association lists, a raised exception by
an `Option` result, and Python `float` arithmetic by exact rationals. -/

/-- A Python cell value as produced by the data pipeline: an `int`, a `float`
(modelled as an exact rational), a `str`, or `None`. -/
inductive Val where
  | vInt : Int → Val
  | vFloat : Rat → Val
  | vStr : String → Val
  | vNone : Val
  deriving DecidableEq, Repr

/-- A Python `dict` row: an insertion-ordered association list from field name
to cell value. -/
abbrev Row := List (String × Val)

/-- Embeds `row[key]` — the first value stored under `key`; `none` models the
`KeyError` raised when the key is absent. -/
def lookupVal (row : Row) (key : String) : Option Val :=
  (row.find? (fun kv => kv.1 == key)).map (fun kv => kv.2)

/-- One cell merge of `multipleDaysData.__normalize_data` (src/api.py 97-110).
`sval` is the cell of the already saved row, `dval` the cell of the newly seen
row for the same date.  The source executes, for each key:
`if isinstance(data[key], (float, int)): new_data[key] = saved + data` and then
a *separate* `if isinstance(data[key], str): ... else: new_data[key] = saved`;
for a numeric `dval` the second statement's `else` branch therefore overwrites
the sum with the saved value.  `none` models a `TypeError` (`str + int`,
`None + int`, or `x in y` with a non-string `y`). -/
def mergeCell (sval dval : Val) : Option Val :=
  match dval with
  | .vInt _ | .vFloat _ =>
    match sval with
    | .vInt _ | .vFloat _ => some sval
    | _ => none
  | .vStr d =>
    match sval with
    | .vStr s =>
      some (if d.data <:+: s.data then .vStr s else .vStr (s ++ ", " ++ d))
    | _ => none
  | .vNone => some sval

/-- Merge of a saved row with a later row sharing its date
(`for key in saved_data:` in `__normalize_data`): iterates over the saved
row's keys in order, reading the later row's cell and combining cells with
`mergeCell`. -/
def mergeRows (saved dataRow : Row) : Option Row :=
  saved.mapM (fun kv => do
    let dv ← lookupVal dataRow kv.1
    let v ← mergeCell kv.2 dv
    pure (kv.1, v))

/-- The `enumerate`/`pop`/`break` scan of `__normalize_data`: removes and
returns the first row of `normal` whose `"Date"` equals `d`; `none` models a
`KeyError` (row without a date) or the unbound `saved_data` when nothing
matches. -/
def extractByDate : List Row → Val → Option (Row × List Row)
  | [], _ => none
  | r :: rs, d =>
    match lookupVal r "Date" with
    | none => none
    | some d2 =>
      if d2 = d then some (r, rs)
      else (extractByDate rs d).map (fun p => (p.1, r :: p.2))

/-- The main loop of `multipleDaysData.__normalize_data` (src/api.py 82-117):
walks the raw rows; a row whose date was already discovered is merged into the
previously saved row for that date (which is popped, and the merged row
appended at the end), otherwise the row is recorded as is. -/
def normalizeLoop : List Row → List Val → List Row → Option (List Row)
  | [], _, normal => some normal
  | dataRow :: rest, discovered, normal =>
    match lookupVal dataRow "Date" with
    | none => none
    | some d =>
      if d ∈ discovered then
        match extractByDate normal d with
        | none => none
        | some (saved, remaining) =>
          match mergeRows saved dataRow with
          | none => none
          | some merged => normalizeLoop rest discovered (remaining ++ [merged])
      else
        normalizeLoop rest (discovered ++ [d]) (normal ++ [dataRow])

/-- Embeds `multipleDaysData.__normalize_data` (src/api.py 76-117). -/
def normalizeData (rows : List Row) : Option (List Row) :=
  normalizeLoop rows [] []

/-- Python `>` between two cell values: numeric comparison between
`int`/`float`, lexicographic comparison between `str`/`str`; any other pairing
raises `TypeError` (`none`). -/
def valGt : Val → Val → Option Bool
  | .vInt a, .vInt b => some (decide (b < a))
  | .vInt a, .vFloat b => some (decide (b < (a : Rat)))
  | .vFloat a, .vInt b => some (decide ((b : Rat) < a))
  | .vFloat a, .vFloat b => some (decide (b < a))
  | .vStr a, .vStr b => some (decide (b < a))
  | _, _ => none

/-- Set equality of the key views of two rows, as checked by
`assert data[cur_i].keys() == data[prev_i].keys()` (dict key views compare as
sets). -/
def keysEq (a b : Row) : Bool :=
  (a.map Prod.fst).all (fun k => (b.map Prod.fst).contains k) &&
  (b.map Prod.fst).all (fun k => (a.map Prod.fst).contains k)

/-- The inner field loop of `__modify_to_monotonically_increasing`
(`for key in data[cur_i]:`): walks the current row's fields in order; a
monitored field strictly smaller than the previous (already corrected) row's
value is overwritten with that value.  Returns the updated field list and the
number of clamped cells. -/
def monoFields (monitored : List String) (prevRow : Row) : Row → Option (Row × Nat)
  | [] => some ([], 0)
  | kv :: rest =>
    if kv.1 ∈ monitored then
      (lookupVal prevRow kv.1).bind (fun pv =>
        (valGt pv kv.2).bind (fun gt =>
          (monoFields monitored prevRow rest).map (fun pr =>
            if gt then ((kv.1, pv) :: pr.1, pr.2 + 1) else (kv :: pr.1, pr.2))))
    else
      (monoFields monitored prevRow rest).map (fun pr => (kv :: pr.1, pr.2))

/-- One iteration of the outer clamping loop: the `assert` on key sets followed
by the field scan against the already corrected previous row. -/
def monoStep (monitored : List String) (prevRow curRow : Row) : Option (Row × Nat) :=
  if keysEq prevRow curRow then monoFields monitored prevRow curRow else none

/-- The outer loop of `__modify_to_monotonically_increasing`
(`for prev_i in range(len(data) - 1)`), threading the corrected previous row
and accumulating the clamp count. -/
def monoLoop (monitored : List String) : Row → List Row → Option (List Row × Nat)
  | _, [] => some ([], 0)
  | prevRow, curRow :: rest =>
    (monoStep monitored prevRow curRow).bind (fun pc =>
      (monoLoop monitored pc.1 rest).map (fun pr => (pc.1 :: pr.1, pc.2 + pr.2)))

/-- Embeds `multipleDaysData.__modify_to_monotonically_increasing` (src/api.py
119-142).  The Python function writes the clamped values into the rows of
`data` itself (`data[cur_i][key] = data[prev_i][key]`) and finishes with
`return data`: the returned list is the caller's list, so the first component
below is at once the return value and the post-call contents of the caller's
argument.  The second component is the `modified_count` the function reports.
`none` models the `IndexError` of `new_data = list(data[0])` on an empty list,
a failing `assert`, or a `TypeError` on incomparable cells. -/
def modifyToMonotonicallyIncreasing : List Row → List String → Option (List Row × Nat)
  | [], _ => none
  | first :: rest, monitored =>
    (monoLoop monitored first rest).map (fun pr => (first :: pr.1, pr.2))

/-- Row `b` is at least row `a` on every monitored field: for each monitored
key, the Python comparison `a[k] > b[k]` evaluates to `False` (so `b[k] ≥
a[k]` whenever the two cells are comparable). -/
def monoLE (monitored : List String) (a b : Row) : Prop :=
  ∀ k ∈ monitored, ∀ pv cv, lookupVal a k = some pv → lookupVal b k = some cv →
    valGt pv cv = some false

/-- One row of a `CountryData` series (src/hopkins_api.py): the combined
per-date record with its cumulative counters. -/
structure CountryDay where
  date : Nat
  confirmed : Int
  deaths : Int
  recovered : Int
  deriving DecidableEq, Repr

/-- Embeds `CountryData.confirmed_each_day` (src/hopkins_api.py 30-37). -/
def confirmedEachDay (data : List CountryDay) : List Int :=
  data.map (fun d => d.confirmed)

/-- Embeds `CountryData.new_cases_each_day` (src/hopkins_api.py 124-137):
`new[i] = total[i+1] - total[i]`. -/
def newCasesEachDay (data : List CountryDay) : List Int :=
  let total := confirmedEachDay data
  List.zipWith (fun cur prev => cur - prev) total.tail total

/-- One dated value of a csv history row (src/hopkins_api.py, the
`{'date': ..., 'value': ...}` dictionaries); dates are abstracted to `Nat`. -/
structure DatedValue where
  date : Nat
  value : Int
  deriving DecidableEq, Repr

/-- Embeds `list(dict.fromkeys(...))` (src/hopkins_api.py 450): de-duplication keeping
the first occurrence of each element, in order. -/
def dedupKeepFirst : List Nat → List Nat
  | [] => []
  | a :: l => a :: dedupKeepFirst (l.filter (fun x => x ≠ a))
termination_by l => l.length
decreasing_by
  simp only [List.length_cons]
  exact Nat.lt_succ_of_le (List.length_filter_le _ l)

/-- The `next(cur['value'] for cur in row if cur['date'] == date)` lookup with
its `StopIteration → pass` handling: the first value recorded for `d`, when
any. -/
def firstValue (l : List DatedValue) (d : Nat) : Option Int :=
  (l.find? (fun dv => dv.date == d)).map (fun dv => dv.value)

/-- Embeds `DateHistoryCvsApi.__merge_same_ids` (src/hopkins_api.py 439-493): union of
the two date lists keeping first-seen order, each date paired with the sum of
the values found for it in either row (0 when absent). -/
def mergeSameIds (one two : List DatedValue) : List DatedValue :=
  let dates := dedupKeepFirst (one.map (fun dv => dv.date) ++ two.map (fun dv => dv.date))
  dates.map (fun d =>
    { date := d, value := (firstValue one d).getD 0 + (firstValue two d).getD 0 })

/-- Embeds `CountryData.r_values_each_day` (src/hopkins_api.py 180-208), as a function
of the weekly averages list.  The real-valued exponentiation
`(cur_week / prev_week) ** (4/7)` is abstracted as the parameter `pw`; it is
only reached with `cur ≠ 0` and `prev ≠ 0`, where the Python result is a real
float and the `isinstance(cur_r_value, complex)` guard never fires. -/
def rValuesEachDay (pw : Rat → Rat → Rat) (weekly : List Rat) : List Rat :=
  (List.range (weekly.length - 7)).map (fun j =>
    let cur := weekly.getD (j + 7) 0
    let prev := weekly.getD j 0
    if cur = 0 then 0
    else if prev = 0 then 1
    else pw cur prev)

/-- Embeds `multipleDaysData.get_r_values` (src/api.py 194-217), as a function of the
week-averages list.  The source executes `if cur_week == 0: cur_r_value = 0`
followed by a *separate* `if prev_week == 0: cur_r_value = 1 else: cur_r_value
= (cur_week / prev_week) ** (4/7)`; the second statement assigns on every
path, so the first assignment is always overwritten (when `prev ≠ 0` and
`cur = 0` the power expression itself evaluates to `0.0`, so `pw` is the whole
of the non-guarded branch). -/
def getRValues (pw : Rat → Rat → Rat) (weekly : List Rat) : List Rat :=
  (List.range (weekly.length - 7)).map (fun curIndex =>
    let cur := weekly.getD (curIndex + 7) 0
    let prev := weekly.getD curIndex 0
    if prev = 0 then 1 else pw cur prev)

/-- One day's tracked metrics (the `SingleDayData` fields consumed by
`DayDataDiff`). -/
structure DayMetrics where
  confirmed : Rat
  deaths : Rat
  recovered : Rat
  active : Rat
  deriving DecidableEq, Repr

/-- Embeds `DayDataDiff.__generate_percentage_diff` (src/api.py 243-245):
`(newest / older - 1) * 100`; `none` models the `ZeroDivisionError` Python
raises when `older == 0`. -/
def generatePercentageDiff (newest older : Rat) : Option Rat :=
  if older = 0 then none else some ((newest / older - 1) * 100)

/-- Embeds `DayDataDiff.confirmed_percentage_diff` (src/api.py 257-259). -/
def confirmedPercentageDiff (newer older : DayMetrics) : Option Rat :=
  generatePercentageDiff newer.confirmed older.confirmed

/-- Embeds `DayDataDiff.deaths_percentage_diff` (src/api.py 265-267). -/
def deathsPercentageDiff (newer older : DayMetrics) : Option Rat :=
  generatePercentageDiff newer.deaths older.deaths

/-- Embeds `DayDataDiff.recovered_percentage_diff` (src/api.py 273-275). -/
def recoveredPercentageDiff (newer older : DayMetrics) : Option Rat :=
  generatePercentageDiff newer.recovered older.recovered

/-- Embeds `DayDataDiff.active_percentage_diff` (src/api.py 281-283). -/
def activePercentageDiff (newer older : DayMetrics) : Option Rat :=
  generatePercentageDiff newer.active older.active

/-- One entry of `CovidHistoryDatabase.all_data()`: a country name with its
combined per-date series. -/
structure CountryEntry where
  country : String
  data : List CountryDay
  deriving DecidableEq, Repr

/-- Embeds `CovidHistoryDatabase.country_data` (src/hopkins_api.py 655-660): the
`next(...)` generator over the stored entries; `none` models the uncaught
`StopIteration` escaping to the caller when no entry matches. -/
def countryData (db : List CountryEntry) (country : String) : Option (List CountryDay) :=
  (db.find? (fun e => e.country == country)).map (fun e => e.data)

/-- One entry of `DateHistoryCvsApi.all_data()`: an id with its dated values. -/
structure IdEntry where
  id : String
  data : List DatedValue
  deriving DecidableEq, Repr

/-- Embeds `DateHistoryCvsApi.data_by_id` (src/hopkins_api.py 541-553); `none` models
the `TypeError(f"Invalid id {data_id}")` raised on a missing id. -/
def dataById (entries : List IdEntry) (dataId : String) : Option (List DatedValue) :=
  (entries.find? (fun e => e.id == dataId)).map (fun e => e.data)

/-- Embeds `multipleDaysData.get_data_before_x_days(days)` = `self.__daydata[-days]`
(src/api.py 144-145), with Python's negative-index semantics for a
non-negative `days`; `none` models the `IndexError` on an out-of-range index.
-/
def getDataBeforeXDays (l : List DayMetrics) (days : Nat) : Option DayMetrics :=
  if days = 0 then l.get? 0
  else if days ≤ l.length then l.get? (l.length - days)
  else none

/-- Embeds `multipleDaysData.compare_dates` (src/api.py 153-156): the returned
`DayDataDiff(new, old)` is modelled as the pair (newer day, older day). -/
def compareDates (l : List DayMetrics) (date1 date2 : Nat) :
    Option (DayMetrics × DayMetrics) :=
  match getDataBeforeXDays l (min date1 date2), getDataBeforeXDays l (max date1 date2) with
  | some n, some o => some (n, o)
  | _, _ => none

/-! # Helper lemmas -/

/-- Telescoping of consecutive differences over a non-empty list. -/
theorem zipWith_sub_tail_sum : ∀ (l : List Int) (h : l ≠ []),
    (List.zipWith (fun cur prev => cur - prev) l.tail l).sum = l.getLast h - l.head h
  | [], h => absurd rfl h
  | [_], _ => by simp
  | a :: b :: t, _ => by
    have ih := zipWith_sub_tail_sum (b :: t) (by simp)
    simp only [List.tail_cons, List.zipWith_cons_cons, List.sum_cons, List.head_cons] at *
    rw [List.getLast_cons (by simp), ih]
    ring

theorem dedupKeepFirst_mem (l : List Nat) (x : Nat) :
    x ∈ dedupKeepFirst l ↔ x ∈ l := by
  induction l using dedupKeepFirst.induct with
  | case1 => simp [dedupKeepFirst]
  | case2 a t ih =>
    rw [dedupKeepFirst]
    constructor
    · intro hmem
      rcases List.mem_cons.1 hmem with rfl | hmem2
      · exact List.mem_cons_self _ _
      · exact List.mem_cons_of_mem a (List.mem_filter.1 (ih.1 hmem2)).1
    · intro hmem
      rcases eq_or_ne x a with rfl | hxa
      · exact List.mem_cons_self _ _
      · rcases List.mem_cons.1 hmem with rfl | hmem2
        · exact absurd rfl hxa
        · exact List.mem_cons_of_mem a
            (ih.2 (List.mem_filter.2 ⟨hmem2, by simpa using hxa⟩))

/-- Filtering away one element does not change the relative order of first
occurrences of the remaining elements. -/
theorem indexOf_filter_ne_lt_iff (a : Nat) :
    ∀ (l : List Nat) (x y : Nat), x ≠ a → y ≠ a →
      ((l.filter (fun z => z ≠ a)).indexOf x < (l.filter (fun z => z ≠ a)).indexOf y ↔
        l.indexOf x < l.indexOf y)
  | [], x, y, _, _ => by simp
  | b :: t, x, y, hx, hy => by
    rw [List.filter_cons]
    by_cases hb : b = a
    · subst hb
      rw [if_neg (by simp)]
      rw [List.indexOf_cons_ne t (Ne.symm hx), List.indexOf_cons_ne t (Ne.symm hy),
        Nat.succ_lt_succ_iff]
      exact indexOf_filter_ne_lt_iff b t x y hx hy
    · rw [if_pos (by simp [hb])]
      rcases eq_or_ne x b with rfl | hxb
      · rw [List.indexOf_cons_self, List.indexOf_cons_self]
        rcases eq_or_ne y x with rfl | hyb
        · rw [List.indexOf_cons_self, List.indexOf_cons_self]
        · rw [List.indexOf_cons_ne _ (Ne.symm hyb), List.indexOf_cons_ne _ (Ne.symm hyb)]
          simp
      · rcases eq_or_ne y b with rfl | hyb
        · rw [List.indexOf_cons_self, List.indexOf_cons_self,
            List.indexOf_cons_ne _ (Ne.symm hxb), List.indexOf_cons_ne _ (Ne.symm hxb)]
          simp
        · rw [List.indexOf_cons_ne _ (Ne.symm hxb), List.indexOf_cons_ne _ (Ne.symm hxb),
            List.indexOf_cons_ne _ (Ne.symm hyb), List.indexOf_cons_ne _ (Ne.symm hyb),
            Nat.succ_lt_succ_iff, Nat.succ_lt_succ_iff]
          exact indexOf_filter_ne_lt_iff a t x y hx hy

/-- The function `dedupKeepFirst` lists elements in strictly increasing order
of their first occurrence in the input. -/
theorem dedupKeepFirst_pairwise (l : List Nat) :
    (dedupKeepFirst l).Pairwise (fun x y => l.indexOf x < l.indexOf y) := by
  induction l using dedupKeepFirst.induct with
  | case1 => simp [dedupKeepFirst]
  | case2 a t ih =>
    rw [dedupKeepFirst]
    refine List.Pairwise.cons ?_ (ih.imp_of_mem ?_)
    · intro b hb
      have hbt : b ∈ t.filter (fun z => z ≠ a) := (dedupKeepFirst_mem _ b).1 hb
      rw [List.mem_filter] at hbt
      have hba : b ≠ a := by simpa using hbt.2
      rw [List.indexOf_cons_self, List.indexOf_cons_ne t (Ne.symm hba)]
      exact Nat.succ_pos _
    · intro x y hx hy hlt
      have hxf := (dedupKeepFirst_mem _ x).1 hx
      have hyf := (dedupKeepFirst_mem _ y).1 hy
      rw [List.mem_filter] at hxf hyf
      have hxa : x ≠ a := by simpa using hxf.2
      have hya : y ≠ a := by simpa using hyf.2
      rw [List.indexOf_cons_ne t (Ne.symm hxa), List.indexOf_cons_ne t (Ne.symm hya),
        Nat.succ_lt_succ_iff]
      exact (indexOf_filter_ne_lt_iff a t x y hxa hya).1 hlt

/-- With no duplicate dates in a row, the single value `__merge_same_ids`
finds for a date (defaulting to 0) is the sum of all values the row holds for
that date. -/
theorem firstValue_getD_eq_filter_sum :
    ∀ (l : List DatedValue) (d : Nat), (l.map (fun dv => dv.date)).Nodup →
      (firstValue l d).getD 0 =
        ((l.filter (fun x => x.date = d)).map (fun x => x.value)).sum
  | [], d, _ => by simp [firstValue]
  | a :: t, d, h => by
    simp only [List.map_cons, List.nodup_cons] at h
    by_cases hd : a.date = d
    · have hnil : t.filter (fun x => x.date = d) = [] := by
        rw [List.filter_eq_nil_iff]
        intro x hx
        simp only [decide_eq_true_eq]
        intro hxd
        exact h.1 (hd ▸ hxd ▸ List.mem_map_of_mem (fun dv => dv.date) hx)
      simp [firstValue, List.find?, hd, List.filter_cons, hnil]
    · have hbeq : (a.date == d) = false := by simp [hd]
      have hfind : firstValue (a :: t) d = firstValue t d := by
        simp [firstValue, List.find?, hbeq]
      rw [hfind, List.filter_cons, if_neg (by simp [hd])]
      exact firstValue_getD_eq_filter_sum t d h.2

/-- A value comparable to anything under Python `>` is comparable to itself,
and never strictly greater than itself. -/
theorem valGt_self (a b : Val) (g : Bool) (h : valGt a b = some g) :
    valGt a a = some false := by
  cases a <;> cases b <;> simp_all [valGt, lt_irrefl]

theorem lookupVal_cons (e : String × Val) (t : Row) (k : String) :
    lookupVal (e :: t) k = if e.1 = k then some e.2 else lookupVal t k := by
  rcases eq_or_ne e.1 k with he | he
  · have hb : (e.1 == k) = true := by simp [he]
    simp [lookupVal, List.find?, hb, he]
  · have hb : (e.1 == k) = false := by simp [he]
    simp [lookupVal, List.find?, hb, he]

theorem keysEq_congr (prev a b : Row) (h : a.map Prod.fst = b.map Prod.fst) :
    keysEq prev a = keysEq prev b := by
  rw [keysEq, keysEq, h]

/-- Full characterisation of the inner clamping scan: it preserves the key
list, each looked-up value is the original or the previous row's, the result
never compares below the previous row on monitored keys, re-scanning the
result clamps nothing, and the result is unchanged iff the clamp count is 0. -/
theorem monoFields_spec (monitored : List String) (prev : Row) :
    ∀ (cur r : Row) (c : Nat), monoFields monitored prev cur = some (r, c) →
      r.map Prod.fst = cur.map Prod.fst ∧
      (∀ k, lookupVal r k = lookupVal cur k ∨
        (k ∈ monitored ∧ lookupVal r k = lookupVal prev k)) ∧
      (∀ k ∈ monitored, ∀ pv cv, lookupVal prev k = some pv → lookupVal r k = some cv →
        valGt pv cv = some false) ∧
      monoFields monitored prev r = some (r, 0) ∧
      (r = cur ↔ c = 0)
  | [], r, c, h => by
    rw [monoFields] at h
    simp only [Option.some.injEq, Prod.mk.injEq] at h
    obtain ⟨rfl, rfl⟩ := h
    refine ⟨rfl, fun k => Or.inl rfl, fun k _ pv cv _ hr => ?_, by rw [monoFields], by simp⟩
    simp [lookupVal] at hr
  | kv :: rest, r, c, h => by
    rw [monoFields] at h
    by_cases hmem : kv.1 ∈ monitored
    · rw [if_pos hmem] at h
      cases hpv : lookupVal prev kv.1 with
      | none =>
        simp only [hpv, Option.none_bind] at h
        exact Option.noConfusion h
      | some pv =>
        simp only [hpv, Option.some_bind] at h
        cases hgt : valGt pv kv.2 with
        | none =>
          simp only [hgt, Option.none_bind] at h
          exact Option.noConfusion h
        | some gt =>
          simp only [hgt, Option.some_bind] at h
          cases hrec : monoFields monitored prev rest with
          | none => simp only [hrec, Option.map_none'] at h; exact Option.noConfusion h
          | some pr =>
            obtain ⟨r', c'⟩ := pr
            obtain ⟨ih1, ih2, ih3, ih4, ih5⟩ := monoFields_spec monitored prev rest r' c' hrec
            simp only [hrec, Option.map_some'] at h
            cases gt with
            | true =>
              rw [if_pos rfl] at h
              simp only [Option.some.injEq, Prod.mk.injEq] at h
              obtain ⟨rfl, rfl⟩ := h
              have hself : valGt pv pv = some false := valGt_self pv kv.2 true hgt
              refine ⟨by simp [ih1], ?_, ?_, ?_, ?_⟩
              · intro k
                rcases eq_or_ne kv.1 k with rfl | hk
                · refine Or.inr ⟨hmem, ?_⟩
                  rw [lookupVal_cons, if_pos rfl, hpv]
                · rw [lookupVal_cons (kv.1, pv), if_neg hk, lookupVal_cons kv, if_neg hk]
                  exact ih2 k
              · intro k hkmem pv2 cv hp hr
                rcases eq_or_ne kv.1 k with rfl | hk
                · rw [lookupVal_cons, if_pos rfl] at hr
                  rw [hpv] at hp
                  obtain rfl := Option.some.inj hp
                  obtain rfl := Option.some.inj hr
                  exact hself
                · rw [lookupVal_cons, if_neg hk] at hr
                  exact ih3 k hkmem pv2 cv hp hr
              · show monoFields monitored prev ((kv.1, pv) :: r') = _
                rw [monoFields]
                rw [if_pos hmem]
                show (lookupVal prev kv.1).bind _ = _
                rw [hpv, Option.some_bind, hself, Option.some_bind, ih4, Option.map_some',
                  if_neg (by simp)]
              · constructor
                · intro heq
                  injection heq with heq1 heq2
                  have h2 : pv = kv.2 := congrArg Prod.snd heq1
                  rw [← h2] at hgt
                  rw [hself] at hgt
                  exact absurd (Option.some.inj hgt) (by simp)
                · intro h0
                  exact absurd h0 (Nat.succ_ne_zero c')
            | false =>
              rw [if_neg (by simp)] at h
              simp only [Option.some.injEq, Prod.mk.injEq] at h
              obtain ⟨rfl, rfl⟩ := h
              refine ⟨by simp [ih1], ?_, ?_, ?_, by simp [ih5]⟩
              · intro k
                rcases eq_or_ne kv.1 k with rfl | hk
                · refine Or.inl ?_
                  rw [lookupVal_cons kv, if_pos rfl, lookupVal_cons kv, if_pos rfl]
                · rw [lookupVal_cons kv, if_neg hk, lookupVal_cons kv, if_neg hk]
                  exact ih2 k
              · intro k hkmem pv2 cv hp hr
                rcases eq_or_ne kv.1 k with rfl | hk
                · rw [lookupVal_cons, if_pos rfl] at hr
                  rw [hpv] at hp
                  obtain rfl := Option.some.inj hp
                  obtain rfl := Option.some.inj hr
                  exact hgt
                · rw [lookupVal_cons, if_neg hk] at hr
                  exact ih3 k hkmem pv2 cv hp hr
              · rw [monoFields, if_pos hmem, hpv, Option.some_bind, hgt, Option.some_bind,
                  ih4, Option.map_some', if_neg (by simp)]
    · rw [if_neg hmem] at h
      cases hrec : monoFields monitored prev rest with
      | none => simp only [hrec, Option.map_none'] at h; exact Option.noConfusion h
      | some pr =>
        obtain ⟨r', c'⟩ := pr
        obtain ⟨ih1, ih2, ih3, ih4, ih5⟩ := monoFields_spec monitored prev rest r' c' hrec
        simp only [hrec, Option.map_some'] at h
        simp only [Option.some.injEq, Prod.mk.injEq] at h
        obtain ⟨rfl, rfl⟩ := h
        refine ⟨by simp [ih1], ?_, ?_, ?_, by simp [ih5]⟩
        · intro k
          rcases eq_or_ne kv.1 k with rfl | hk
          · refine Or.inl ?_
            rw [lookupVal_cons kv, if_pos rfl, lookupVal_cons kv, if_pos rfl]
          · rw [lookupVal_cons kv, if_neg hk, lookupVal_cons kv, if_neg hk]
            exact ih2 k
        · intro k hkmem pv2 cv hp hr
          rcases eq_or_ne kv.1 k with rfl | hk
          · exact absurd hkmem hmem
          · rw [lookupVal_cons, if_neg hk] at hr
            exact ih3 k hkmem pv2 cv hp hr
        · rw [monoFields, if_neg hmem, ih4, Option.map_some']

/-- Characterisation of one outer-loop step: the key-set assert plus the
field scan. -/
theorem monoStep_spec (monitored : List String) (prev cur r : Row) (c : Nat)
    (h : monoStep monitored prev cur = some (r, c)) :
    r.map Prod.fst = cur.map Prod.fst ∧
    monoLE monitored prev r ∧
    (∀ k, lookupVal r k = lookupVal cur k ∨
      (k ∈ monitored ∧ lookupVal r k = lookupVal prev k)) ∧
    monoStep monitored prev r = some (r, 0) ∧
    (r = cur ↔ c = 0) := by
  rw [monoStep] at h
  by_cases hk : keysEq prev cur = true
  · rw [if_pos hk] at h
    obtain ⟨h1, h2, h3, h4, h5⟩ := monoFields_spec monitored prev cur r c h
    refine ⟨h1, h3, h2, ?_, h5⟩
    rw [monoStep, keysEq_congr prev r cur h1, if_pos hk, h4]
  · rw [if_neg hk] at h
    exact Option.noConfusion h

/-- Characterisation of the outer clamping loop: same length, chainwise
non-decreasing on monitored fields starting from the (unchanged) first row,
value-origin tracking, a second run clamps nothing, and the data is unchanged
iff the clamp count is 0. -/
theorem monoLoop_spec (monitored : List String) :
    ∀ (rest : List Row) (prev : Row) (outs : List Row) (c : Nat),
      monoLoop monitored prev rest = some (outs, c) →
      outs.length = rest.length ∧
      List.Chain (monoLE monitored) prev outs ∧
      (∀ i, i < rest.length → ∀ k ∈ monitored,
        lookupVal (outs.getD i []) k = lookupVal (rest.getD i []) k ∨
        lookupVal (outs.getD i []) k = lookupVal ((prev :: outs).getD i []) k) ∧
      monoLoop monitored prev outs = some (outs, 0) ∧
      (outs = rest ↔ c = 0)
  | [], prev, outs, c, h => by
    rw [monoLoop] at h
    simp only [Option.some.injEq, Prod.mk.injEq] at h
    obtain ⟨rfl, rfl⟩ := h
    exact ⟨rfl, List.Chain.nil, fun i hi => absurd hi (by simp), by rw [monoLoop], by simp⟩
  | cur :: rest, prev, outs, c, h => by
    rw [monoLoop] at h
    cases hstep : monoStep monitored prev cur with
    | none =>
      simp only [hstep, Option.none_bind] at h
      exact Option.noConfusion h
    | some pc =>
      obtain ⟨cur2, c1⟩ := pc
      simp only [hstep, Option.some_bind] at h
      cases hrec : monoLoop monitored cur2 rest with
      | none =>
        simp only [hrec, Option.map_none'] at h
        exact Option.noConfusion h
      | some pr =>
        obtain ⟨outs', c2⟩ := pr
        simp only [hrec, Option.map_some', Option.some.injEq, Prod.mk.injEq] at h
        obtain ⟨rfl, rfl⟩ := h
        obtain ⟨s1, s2, s3, s4, s5⟩ := monoStep_spec monitored prev cur cur2 c1 hstep
        obtain ⟨l1, l2, l3, l4, l5⟩ := monoLoop_spec monitored rest cur2 outs' c2 hrec
        refine ⟨by simp [l1], List.Chain.cons s2 l2, ?_, ?_, ?_⟩
        · intro i hi k hkmem
          cases i with
          | zero =>
            simp only [List.getD_cons_zero]
            rcases s3 k with he | ⟨-, he⟩
            · exact Or.inl he
            · exact Or.inr he
          | succ j =>
            simp only [List.getD_cons_succ]
            exact l3 j (by simp at hi; omega) k hkmem
        · rw [monoLoop]
          simp only [s4, Option.some_bind, l4, Option.map_some']
        · constructor
          · intro heq
            injection heq with he1 he2
            have hc1 : c1 = 0 := s5.mp he1
            have hc2 : c2 = 0 := l5.mp he2
            omega
          · intro h0
            have hc1 : c1 = 0 := by omega
            have hc2 : c2 = 0 := by omega
            rw [s5.mpr hc1, l5.mpr hc2]

/-! # Claim theorems -/

/-- C3: for two duplicate-id rows (each with distinct dates, as a csv row
has), the series merger produces the union of the dates of both rows in
first-seen order (strictly sorted by index of first occurrence in the
concatenation, covering exactly the dates of either row), each merged value
being the sum of the values present for that date with an absent date
contributing 0; in particular rows `[d1,d2] ↦ [5,7]` and `[d1,d3] ↦ [3,9]`
merge to `[d1,d2,d3] ↦ [8,7,9]`. -/
theorem c3_series_merger (one two : List DatedValue)
    (h1 : (one.map (fun dv => dv.date)).Nodup)
    (h2 : (two.map (fun dv => dv.date)).Nodup) :
    (((mergeSameIds one two).map (fun dv => dv.date)).Pairwise
      (fun x y => (one.map (fun dv => dv.date) ++ two.map (fun dv => dv.date)).indexOf x <
        (one.map (fun dv => dv.date) ++ two.map (fun dv => dv.date)).indexOf y) ∧
     (∀ d, d ∈ (mergeSameIds one two).map (fun dv => dv.date) ↔
        (d ∈ one.map (fun dv => dv.date) ∨ d ∈ two.map (fun dv => dv.date))) ∧
     (∀ dv ∈ mergeSameIds one two,
        dv.value = ((one.filter (fun x => x.date = dv.date)).map (fun x => x.value)).sum +
                   ((two.filter (fun x => x.date = dv.date)).map (fun x => x.value)).sum)) ∧
    mergeSameIds [⟨1,5⟩,⟨2,7⟩] [⟨1,3⟩,⟨3,9⟩] = [⟨1,8⟩,⟨2,7⟩,⟨3,9⟩] := by
  have hmap : (mergeSameIds one two).map (fun dv => dv.date) =
      dedupKeepFirst (one.map (fun dv => dv.date) ++ two.map (fun dv => dv.date)) := by
    rw [mergeSameIds, List.map_map]
    exact List.map_id' _
  refine ⟨⟨?_, ?_, ?_⟩, ?_⟩
  · rw [hmap]
    exact dedupKeepFirst_pairwise _
  · intro d
    rw [hmap, dedupKeepFirst_mem, List.mem_append]
  · intro dv hdv
    rw [mergeSameIds, List.mem_map] at hdv
    obtain ⟨d, _, rfl⟩ := hdv
    simp only
    rw [firstValue_getD_eq_filter_sum one d h1, firstValue_getD_eq_filter_sum two d h2]
  · simp [mergeSameIds, dedupKeepFirst, firstValue, List.find?, List.filter]

/-- Witness for C3 at the rows `[⟨1,5⟩]` and `[⟨2,4⟩]`. -/
theorem c3_series_merger_witness :
    (([⟨1,5⟩] : List DatedValue).map (fun dv => dv.date)).Nodup ∧
    (([⟨2,4⟩] : List DatedValue).map (fun dv => dv.date)).Nodup ∧
    ((((mergeSameIds [⟨1,5⟩] [⟨2,4⟩]).map (fun dv => dv.date)).Pairwise
       (fun x y =>
         (([⟨1,5⟩] : List DatedValue).map (fun dv => dv.date) ++
           ([⟨2,4⟩] : List DatedValue).map (fun dv => dv.date)).indexOf x <
         (([⟨1,5⟩] : List DatedValue).map (fun dv => dv.date) ++
           ([⟨2,4⟩] : List DatedValue).map (fun dv => dv.date)).indexOf y) ∧
      (∀ d, d ∈ (mergeSameIds [⟨1,5⟩] [⟨2,4⟩]).map (fun dv => dv.date) ↔
        (d ∈ ([⟨1,5⟩] : List DatedValue).map (fun dv => dv.date) ∨
         d ∈ ([⟨2,4⟩] : List DatedValue).map (fun dv => dv.date))) ∧
      (∀ dv ∈ mergeSameIds [⟨1,5⟩] [⟨2,4⟩],
        dv.value =
          ((([⟨1,5⟩] : List DatedValue).filter (fun x => x.date = dv.date)).map
            (fun x => x.value)).sum +
          ((([⟨2,4⟩] : List DatedValue).filter (fun x => x.date = dv.date)).map
            (fun x => x.value)).sum)) ∧
     mergeSameIds [⟨1,5⟩,⟨2,7⟩] [⟨1,3⟩,⟨3,9⟩] = [⟨1,8⟩,⟨2,7⟩,⟨3,9⟩]) :=
  ⟨by decide, by decide, c3_series_merger [⟨1,5⟩] [⟨2,4⟩] (by decide) (by decide)⟩

/-- C6: for every non-empty country series, `new_cases_each_day` has length
`len(S) - 1` and its sum telescopes to the last confirmed value minus the
first confirmed value. -/
theorem c6_new_cases_telescope (data : List CountryDay) (h : data ≠ []) :
    (newCasesEachDay data).length = data.length - 1 ∧
    (newCasesEachDay data).sum =
      (data.getLast h).confirmed - (data.head h).confirmed := by
  constructor
  · simp [newCasesEachDay, confirmedEachDay, List.length_zipWith]
  · have hne : confirmedEachDay data ≠ [] := by
      simp [confirmedEachDay, h]
    have := zipWith_sub_tail_sum (confirmedEachDay data) hne
    rw [newCasesEachDay, this]
    simp [confirmedEachDay, List.getLast_map, List.head_map]

/-- Witness for C6 at the concrete series `[10, 10, 8, 15]`. -/
theorem c6_new_cases_telescope_witness :
    ([⟨0,10,0,0⟩,⟨1,10,0,0⟩,⟨2,8,0,0⟩,⟨3,15,0,0⟩] : List CountryDay) ≠ [] ∧
    (newCasesEachDay [⟨0,10,0,0⟩,⟨1,10,0,0⟩,⟨2,8,0,0⟩,⟨3,15,0,0⟩]).length = 4 - 1 ∧
    (newCasesEachDay [⟨0,10,0,0⟩,⟨1,10,0,0⟩,⟨2,8,0,0⟩,⟨3,15,0,0⟩]).sum = 15 - 10 :=
  ⟨by decide, c6_new_cases_telescope [⟨0,10,0,0⟩,⟨1,10,0,0⟩,⟨2,8,0,0⟩,⟨3,15,0,0⟩] (by decide)⟩

/-- C7: for every pair of day observations and every tracked metric, the
percentage-diff operation fails (Python `ZeroDivisionError`, modelled `none`)
exactly when the older metric is `0`, and otherwise returns
`(newer / older - 1) * 100`; a zero denominator is never mapped to a default
value. -/
theorem c7_percentage_diff_guard (newer older : DayMetrics) :
    ((confirmedPercentageDiff newer older = none ↔ older.confirmed = 0) ∧
     (older.confirmed ≠ 0 → confirmedPercentageDiff newer older =
        some ((newer.confirmed / older.confirmed - 1) * 100))) ∧
    ((deathsPercentageDiff newer older = none ↔ older.deaths = 0) ∧
     (older.deaths ≠ 0 → deathsPercentageDiff newer older =
        some ((newer.deaths / older.deaths - 1) * 100))) ∧
    ((recoveredPercentageDiff newer older = none ↔ older.recovered = 0) ∧
     (older.recovered ≠ 0 → recoveredPercentageDiff newer older =
        some ((newer.recovered / older.recovered - 1) * 100))) ∧
    ((activePercentageDiff newer older = none ↔ older.active = 0) ∧
     (older.active ≠ 0 → activePercentageDiff newer older =
        some ((newer.active / older.active - 1) * 100))) := by
  unfold confirmedPercentageDiff deathsPercentageDiff recoveredPercentageDiff
    activePercentageDiff generatePercentageDiff
  refine ⟨⟨?_, ?_⟩, ⟨?_, ?_⟩, ⟨?_, ?_⟩, ⟨?_, ?_⟩⟩ <;> split <;> simp_all

/-- Witness for C7 at concrete observations (older metrics `2, 0, 4, 5`). -/
theorem c7_percentage_diff_guard_witness :
    ((confirmedPercentageDiff ⟨3,1,1,1⟩ ⟨2,0,4,5⟩ = none ↔ (2:Rat) = 0) ∧
     ((2:Rat) ≠ 0 → confirmedPercentageDiff ⟨3,1,1,1⟩ ⟨2,0,4,5⟩ =
        some (((3:Rat) / 2 - 1) * 100))) ∧
    ((deathsPercentageDiff ⟨3,1,1,1⟩ ⟨2,0,4,5⟩ = none ↔ (0:Rat) = 0) ∧
     ((0:Rat) ≠ 0 → deathsPercentageDiff ⟨3,1,1,1⟩ ⟨2,0,4,5⟩ =
        some (((1:Rat) / 0 - 1) * 100))) ∧
    ((recoveredPercentageDiff ⟨3,1,1,1⟩ ⟨2,0,4,5⟩ = none ↔ (4:Rat) = 0) ∧
     ((4:Rat) ≠ 0 → recoveredPercentageDiff ⟨3,1,1,1⟩ ⟨2,0,4,5⟩ =
        some (((1:Rat) / 4 - 1) * 100))) ∧
    ((activePercentageDiff ⟨3,1,1,1⟩ ⟨2,0,4,5⟩ = none ↔ (5:Rat) = 0) ∧
     ((5:Rat) ≠ 0 → activePercentageDiff ⟨3,1,1,1⟩ ⟨2,0,4,5⟩ =
        some (((1:Rat) / 5 - 1) * 100))) :=
  c7_percentage_diff_guard ⟨3,1,1,1⟩ ⟨2,0,4,5⟩

/-- C8: a lookup of a country (or id) absent from the processed dataset fails
with a surfaced error (`StopIteration` from `country_data`, `TypeError` from
`data_by_id`, both modelled `none`); it never returns an empty series or any
other default. -/
theorem c8_absent_lookup_fails (db : List CountryEntry) (entries : List IdEntry)
    (c i : String)
    (hc : ∀ e ∈ db, e.country ≠ c) (hi : ∀ e ∈ entries, e.id ≠ i) :
    countryData db c = none ∧ dataById entries i = none := by
  constructor
  · rw [countryData, List.find?_eq_none.2 (fun e he => by simp [hc e he])]
    rfl
  · rw [dataById, List.find?_eq_none.2 (fun e he => by simp [hi e he])]
    rfl

/-- Witness for C8: a one-entry database that does not contain `"Narnia"`. -/
theorem c8_absent_lookup_fails_witness :
    (∀ e ∈ [(⟨"Canada", []⟩ : CountryEntry)], e.country ≠ "Narnia") ∧
    (∀ e ∈ [(⟨"Canada", []⟩ : IdEntry)], e.id ≠ "Narnia") ∧
    countryData [⟨"Canada", []⟩] "Narnia" = none ∧
    dataById [⟨"Canada", []⟩] "Narnia" = none :=
  ⟨by decide, by decide,
   c8_absent_lookup_fails [⟨"Canada", []⟩] [⟨"Canada", []⟩] "Narnia" "Narnia"
     (by decide) (by decide)⟩

/-- C10: `compare_dates` is symmetric in its two offsets, and the smaller
(more recent) offset is always taken as the newer side of the diff. -/
theorem c10_compare_dates_symmetric (l : List DayMetrics) (a b : Nat) :
    compareDates l a b = compareDates l b a ∧
    (a ≤ b → ∀ n o, compareDates l a b = some (n, o) →
      getDataBeforeXDays l a = some n ∧ getDataBeforeXDays l b = some o) := by
  constructor
  · rw [compareDates, compareDates, Nat.min_comm, Nat.max_comm]
  · intro hab n o h
    rw [compareDates, Nat.min_eq_left hab, Nat.max_eq_right hab] at h
    cases hn : getDataBeforeXDays l a <;> cases ho : getDataBeforeXDays l b <;>
      rw [hn, ho] at h <;> simp_all

/-- Witness for C10 on a three-day series with offsets 1 and 2. -/
theorem c10_compare_dates_symmetric_witness :
    compareDates [⟨1,0,0,0⟩,⟨2,0,0,0⟩,⟨3,0,0,0⟩] 1 2 =
      compareDates [⟨1,0,0,0⟩,⟨2,0,0,0⟩,⟨3,0,0,0⟩] 2 1 ∧
    (1 ≤ 2 → ∀ n o, compareDates [⟨1,0,0,0⟩,⟨2,0,0,0⟩,⟨3,0,0,0⟩] 1 2 = some (n, o) →
      getDataBeforeXDays [⟨1,0,0,0⟩,⟨2,0,0,0⟩,⟨3,0,0,0⟩] 1 = some n ∧
      getDataBeforeXDays [⟨1,0,0,0⟩,⟨2,0,0,0⟩,⟨3,0,0,0⟩] 2 = some o) :=
  c10_compare_dates_symmetric [⟨1,0,0,0⟩,⟨2,0,0,0⟩,⟨3,0,0,0⟩] 1 2

/-- C2 (code bug): for two province rows sharing date `"d1"` with `Confirmed`
values `5` and `3`, the aggregation keeps the first row's value `5` instead of
the sum `8`: the summing assignment `new_data[key] = saved_data[key] +
data[key]` is unconditionally overwritten by the `else` branch of the
following separate `if isinstance(..., str)` statement. -/
theorem c2_numeric_merge_drops_sum :
    normalizeData [[("Date", Val.vStr "d1"), ("Confirmed", Val.vInt 5)],
                   [("Date", Val.vStr "d1"), ("Confirmed", Val.vInt 3)]] =
      some [[("Date", Val.vStr "d1"), ("Confirmed", Val.vInt 5)]] ∧
    Val.vInt 5 ≠ Val.vInt (5 + 3) := by
  exact ⟨rfl, by decide⟩

/-- C1 counterexample: on a weekly-averages list of eight zeros the first
eligible index has `cur == 0` and `prev == 0`; the claim requires the r-value
`0.0`, but `multipleDaysData.get_r_values` (src/api.py) produces `1`, because
its `if prev_week == 0` is a separate statement that overwrites the
`cur_week == 0` assignment.  (The exponentiation parameter is instantiated
with plain division; it is irrelevant on this input.) -/
theorem c1_counterexample :
    getRValues (fun a b => a / b) (List.replicate 8 0) = [1] ∧ (1 : Rat) ≠ 0 := by
  exact ⟨rfl, by norm_num⟩

/-- C1 (amended): in `CountryData.r_values_each_day` (src/hopkins_api.py) the
guards are as the claim states — `cur == 0` gives `0.0` with precedence over
`prev == 0`, `prev == 0` alone gives `1.0`, otherwise the power formula.  In
the legacy `multipleDaysData.get_r_values` (src/api.py) the `prev == 0` guard
takes precedence instead: `prev == 0` gives `1` even when `cur == 0`
simultaneously, and otherwise the power formula is applied (which yields `0.0`
when `cur == 0`). -/
theorem c1_r_value_guards (pw : Rat → Rat → Rat) (weekly : List Rat) (j : Nat)
    (cur prev : Rat) (hj : j + 7 < weekly.length)
    (hcur : weekly.getD (j + 7) 0 = cur) (hprev : weekly.getD j 0 = prev) :
    ((cur = 0 → (rValuesEachDay pw weekly)[j]? = some 0) ∧
     (cur ≠ 0 → prev = 0 → (rValuesEachDay pw weekly)[j]? = some 1) ∧
     (cur ≠ 0 → prev ≠ 0 → (rValuesEachDay pw weekly)[j]? = some (pw cur prev))) ∧
    ((prev = 0 → (getRValues pw weekly)[j]? = some 1) ∧
     (prev ≠ 0 → (getRValues pw weekly)[j]? = some (pw cur prev))) := by
  have hrange : j < weekly.length - 7 := by omega
  rw [List.getD_eq_getElem?_getD] at hcur hprev
  have h1 : (rValuesEachDay pw weekly)[j]? =
      some (if cur = 0 then 0 else if prev = 0 then 1 else pw cur prev) := by
    rw [rValuesEachDay, List.getElem?_map, List.getElem?_range hrange]
    simp [hcur, hprev]
  have h2 : (getRValues pw weekly)[j]? =
      some (if prev = 0 then 1 else pw cur prev) := by
    rw [getRValues, List.getElem?_map, List.getElem?_range hrange]
    simp [hcur, hprev]
  refine ⟨⟨?_, ?_, ?_⟩, ?_, ?_⟩ <;> intros <;> simp_all

/-- Witness for C1 (amended) at `weekly = [2,1,1,1,1,1,1,3]`, `j = 0`
(`cur = 3`, `prev = 2`). -/
theorem c1_r_value_guards_witness :
    (0 + 7 < ([(2:Rat),1,1,1,1,1,1,3]).length) ∧
    ((((3:Rat) = 0 → (rValuesEachDay (fun a b => a / b) [2,1,1,1,1,1,1,3])[0]? = some 0) ∧
      ((3:Rat) ≠ 0 → (2:Rat) = 0 →
        (rValuesEachDay (fun a b => a / b) [2,1,1,1,1,1,1,3])[0]? = some 1) ∧
      ((3:Rat) ≠ 0 → (2:Rat) ≠ 0 →
        (rValuesEachDay (fun a b => a / b) [2,1,1,1,1,1,1,3])[0]? =
          some ((fun (a b : Rat) => a / b) 3 2))) ∧
     (((2:Rat) = 0 → (getRValues (fun a b => a / b) [2,1,1,1,1,1,1,3])[0]? = some 1) ∧
      ((2:Rat) ≠ 0 → (getRValues (fun a b => a / b) [2,1,1,1,1,1,1,3])[0]? =
        some ((fun (a b : Rat) => a / b) 3 2)))) :=
  ⟨by norm_num,
   c1_r_value_guards (fun a b => a / b) [2,1,1,1,1,1,1,3] 0 3 2
     (by norm_num) (by norm_num) (by norm_num)⟩

/-- C4: for every non-empty series accepted by the enforcer, the output has
the input's length, consecutive rows never decrease on monitored fields
(`List.Chain'` of `monoLE`: the Python test `prev[k] > cur[k]` is `False` on
every adjacent pair), the first row is unchanged, and every later monitored
value is either the original value or the already-corrected previous day's
value; in particular `[10, 10, 8, 15]` becomes `[10, 10, 10, 15]` (one
clamp). -/
theorem c4_monotonicity_enforcer :
    (∀ (data : List Row) (monitored : List String) (out : List Row) (c : Nat),
      modifyToMonotonicallyIncreasing data monitored = some (out, c) →
      out.length = data.length ∧
      List.Chain' (monoLE monitored) out ∧
      out.getD 0 [] = data.getD 0 [] ∧
      (∀ i, i + 1 < out.length → ∀ k ∈ monitored,
        lookupVal (out.getD (i+1) []) k = lookupVal (data.getD (i+1) []) k ∨
        lookupVal (out.getD (i+1) []) k = lookupVal (out.getD i []) k)) ∧
    modifyToMonotonicallyIncreasing
      [[("Confirmed", Val.vInt 10)], [("Confirmed", Val.vInt 10)],
       [("Confirmed", Val.vInt 8)], [("Confirmed", Val.vInt 15)]] ["Confirmed"] =
      some ([[("Confirmed", Val.vInt 10)], [("Confirmed", Val.vInt 10)],
             [("Confirmed", Val.vInt 10)], [("Confirmed", Val.vInt 15)]], 1) := by
  constructor
  · intro data monitored out c h
    cases data with
    | nil => rw [modifyToMonotonicallyIncreasing] at h; exact Option.noConfusion h
    | cons first rest =>
      rw [modifyToMonotonicallyIncreasing] at h
      cases hml : monoLoop monitored first rest with
      | none => simp only [hml, Option.map_none'] at h; exact Option.noConfusion h
      | some pr =>
        obtain ⟨outs, c0⟩ := pr
        simp only [hml, Option.map_some', Option.some.injEq, Prod.mk.injEq] at h
        obtain ⟨rfl, rfl⟩ := h
        obtain ⟨l1, l2, l3, -, -⟩ := monoLoop_spec monitored rest first outs c0 hml
        refine ⟨by simp [l1], l2, by simp, ?_⟩
        intro i hi k hkmem
        simp only [List.getD_cons_succ]
        have hi' : i < rest.length := by
          simp only [List.length_cons, l1] at hi
          omega
        exact l3 i hi' k hkmem
  · rfl

/-- Witness for C4 at the two-day series `[9, 6]` (one clamp to `[9, 9]`). -/
theorem c4_monotonicity_enforcer_witness :
    modifyToMonotonicallyIncreasing
        [[("Confirmed", Val.vInt 9)], [("Confirmed", Val.vInt 6)]] ["Confirmed"] =
      some ([[("Confirmed", Val.vInt 9)], [("Confirmed", Val.vInt 9)]], 1) ∧
    (([[("Confirmed", Val.vInt 9)], [("Confirmed", Val.vInt 9)]] : List Row).length =
        ([[("Confirmed", Val.vInt 9)], [("Confirmed", Val.vInt 6)]] : List Row).length ∧
     List.Chain' (monoLE ["Confirmed"])
        [[("Confirmed", Val.vInt 9)], [("Confirmed", Val.vInt 9)]] ∧
     ([[("Confirmed", Val.vInt 9)], [("Confirmed", Val.vInt 9)]] : List Row).getD 0 [] =
        ([[("Confirmed", Val.vInt 9)], [("Confirmed", Val.vInt 6)]] : List Row).getD 0 [] ∧
     (∀ i, i + 1 < ([[("Confirmed", Val.vInt 9)], [("Confirmed", Val.vInt 9)]] : List Row).length →
        ∀ k ∈ ["Confirmed"],
        lookupVal (([[("Confirmed", Val.vInt 9)],
            [("Confirmed", Val.vInt 9)]] : List Row).getD (i+1) []) k =
          lookupVal (([[("Confirmed", Val.vInt 9)],
            [("Confirmed", Val.vInt 6)]] : List Row).getD (i+1) []) k ∨
        lookupVal (([[("Confirmed", Val.vInt 9)],
            [("Confirmed", Val.vInt 9)]] : List Row).getD (i+1) []) k =
          lookupVal (([[("Confirmed", Val.vInt 9)],
            [("Confirmed", Val.vInt 9)]] : List Row).getD i []) k)) :=
  ⟨rfl, c4_monotonicity_enforcer.1
    [[("Confirmed", Val.vInt 9)], [("Confirmed", Val.vInt 6)]] ["Confirmed"]
    [[("Confirmed", Val.vInt 9)], [("Confirmed", Val.vInt 9)]] 1 rfl⟩

/-- C5: the monotonicity enforcer is idempotent: whenever it accepts an input,
running it again on its own output returns the output unchanged with a
modified-value count of 0. -/
theorem c5_enforcer_idempotent (data : List Row) (monitored : List String)
    (out : List Row) (c : Nat)
    (h : modifyToMonotonicallyIncreasing data monitored = some (out, c)) :
    modifyToMonotonicallyIncreasing out monitored = some (out, 0) := by
  cases data with
  | nil => rw [modifyToMonotonicallyIncreasing] at h; exact Option.noConfusion h
  | cons first rest =>
    rw [modifyToMonotonicallyIncreasing] at h
    cases hml : monoLoop monitored first rest with
    | none => simp only [hml, Option.map_none'] at h; exact Option.noConfusion h
    | some pr =>
      obtain ⟨outs, c0⟩ := pr
      simp only [hml, Option.map_some', Option.some.injEq, Prod.mk.injEq] at h
      obtain ⟨rfl, rfl⟩ := h
      obtain ⟨-, -, -, l4, -⟩ := monoLoop_spec monitored rest first outs c0 hml
      rw [modifyToMonotonicallyIncreasing]
      simp only [l4, Option.map_some']

/-- Witness for C5 at the series `[5, 3]` (clamped to `[5, 5]`, then stable). -/
theorem c5_enforcer_idempotent_witness :
    modifyToMonotonicallyIncreasing
        [[("Confirmed", Val.vInt 5)], [("Confirmed", Val.vInt 3)]] ["Confirmed"] =
      some ([[("Confirmed", Val.vInt 5)], [("Confirmed", Val.vInt 5)]], 1) ∧
    modifyToMonotonicallyIncreasing
        [[("Confirmed", Val.vInt 5)], [("Confirmed", Val.vInt 5)]] ["Confirmed"] =
      some ([[("Confirmed", Val.vInt 5)], [("Confirmed", Val.vInt 5)]], 0) :=
  ⟨rfl, c5_enforcer_idempotent
    [[("Confirmed", Val.vInt 5)], [("Confirmed", Val.vInt 3)]] ["Confirmed"]
    [[("Confirmed", Val.vInt 5)], [("Confirmed", Val.vInt 5)]] 1 rfl⟩

/-- C9 counterexample: the monotonicity enforcer does not leave its argument
unchanged.  The Python function assigns `data[cur_i][key] = data[prev_i][key]`
into the caller's rows and ends with `return data`, so the returned list is
the post-call contents of the argument; on `[7, 4]` it differs from the
pre-call contents. -/
theorem c9_counterexample :
    modifyToMonotonicallyIncreasing
        [[("Confirmed", Val.vInt 7)], [("Confirmed", Val.vInt 4)]] ["Confirmed"] =
      some ([[("Confirmed", Val.vInt 7)], [("Confirmed", Val.vInt 7)]], 1) ∧
    ([[("Confirmed", Val.vInt 7)], [("Confirmed", Val.vInt 7)]] : List Row) ≠
      [[("Confirmed", Val.vInt 7)], [("Confirmed", Val.vInt 4)]] :=
  ⟨rfl, by decide⟩

/-- C9 (amended): `__normalize_data` and `__merge_same_ids` build new lists,
but `__modify_to_monotonically_increasing` writes clamped values into the
input rows in place and returns the input list; the caller's argument is left
unchanged exactly when no cell was clamped (modified count 0). -/
theorem c9_enforcer_writes_in_place (data : List Row) (monitored : List String)
    (out : List Row) (c : Nat)
    (h : modifyToMonotonicallyIncreasing data monitored = some (out, c)) :
    out = data ↔ c = 0 := by
  cases data with
  | nil => rw [modifyToMonotonicallyIncreasing] at h; exact Option.noConfusion h
  | cons first rest =>
    rw [modifyToMonotonicallyIncreasing] at h
    cases hml : monoLoop monitored first rest with
    | none => simp only [hml, Option.map_none'] at h; exact Option.noConfusion h
    | some pr =>
      obtain ⟨outs, c0⟩ := pr
      simp only [hml, Option.map_some', Option.some.injEq, Prod.mk.injEq] at h
      obtain ⟨rfl, rfl⟩ := h
      obtain ⟨-, -, -, -, l5⟩ := monoLoop_spec monitored rest first outs c0 hml
      simp [l5]

/-- Witness for C9 (amended) at the already-monotone series `[1, 2]`. -/
theorem c9_enforcer_writes_in_place_witness :
    modifyToMonotonicallyIncreasing
        [[("Confirmed", Val.vInt 1)], [("Confirmed", Val.vInt 2)]] ["Confirmed"] =
      some ([[("Confirmed", Val.vInt 1)], [("Confirmed", Val.vInt 2)]], 0) ∧
    (([[("Confirmed", Val.vInt 1)], [("Confirmed", Val.vInt 2)]] : List Row) =
      [[("Confirmed", Val.vInt 1)], [("Confirmed", Val.vInt 2)]] ↔ (0 : Nat) = 0) :=
  ⟨rfl, c9_enforcer_writes_in_place
    [[("Confirmed", Val.vInt 1)], [("Confirmed", Val.vInt 2)]] ["Confirmed"]
    [[("Confirmed", Val.vInt 1)], [("Confirmed", Val.vInt 2)]] 0 rfl⟩

end CovidBot
